import Mathlib

/-!
Shallow embedding of the CCTP bridge lifecycle engine
(`src/lib/server/cctp/{service,config,attestation,attestation-worker,evm,starknet}.ts`).

Conventions of the embedding:
* database rows become Lean structures; SQL `UPDATE ... WHERE id` on a single row
  becomes a pure record update;
* `NOW()` timestamps are threaded in as a `now : Nat` argument;
* the external attestation service (`getMessageFromTx` HTTP call) is an oracle
  argument of type `Except Unit (Option MessageResponse)` — `.error` models the
  call throwing, `.ok none` models a 404 / empty `messages` array;
* `keccak256` is an abstract `hashFn : String → String` argument;
* JavaScript string truthiness (`if (!s)`) is modelled by `jsFalsy`, which is
  true exactly on `undefined`/`null` (here `none`) and the empty string;
* hex strings (after `0x` stripping) are modelled as lists of nibbles `Fin 16`.
-/

namespace CCTP

/-- Chain family tag (`ChainConfig.type` in `app-config.ts`): `'evm' | 'starknet' | 'solana'`. -/
inductive ChainType
  | evm
  | starknet
  | solana
deriving DecidableEq, Repr

/-- One row of `supported_chains`, as loaded by `app-config.ts` (fields used by the core). -/
structure ChainConfig where
  domainId : Nat
  type : ChainType
  tokenMessenger : String
  messageTransmitter : String
  usdc : String
  chainId : String
deriving DecidableEq, Repr

/-- The in-memory chain registry: domain id → config (`getChainConfig`). -/
def Registry : Type := Nat → Option ChainConfig

/-- From `service.ts`: `type BridgeStatus = 'initiated' | 'burned' | 'attested' | 'minting' | 'completed' | 'failed'`. -/
inductive BridgeStatus
  | initiated
  | burned
  | attested
  | minting
  | completed
  | failed
deriving DecidableEq, Repr

/-- From `service.ts`: `type AttestationStatus = 'pending' | 'complete' | 'failed'`. -/
inductive AttestationStatus
  | pending
  | complete
  | failed
deriving DecidableEq, Repr

/-- One row of `bridge_transactions` (interface `BridgeTransaction` in `service.ts`).
`Option String` models nullable text columns. -/
structure BridgeTx where
  id : String
  userAddress : String
  sourceDomainId : Nat
  destDomainId : Nat
  amount : String
  recipientAddress : String
  burnTxHash : Option String
  messageHash : Option String
  messageBytes : Option String
  nonce : Option String
  attestation : Option String
  attestationStatus : AttestationStatus
  attestationAttempts : Nat
  lastAttestationCheck : Option Nat
  mintTxHash : Option String
  status : BridgeStatus
  errorMessage : Option String
  createdAt : Nat
  updatedAt : Nat
deriving DecidableEq, Repr

/-- JavaScript truthiness test for an optional string: `!s` is true for
`undefined`/`null` and for the empty string. -/
def jsFalsy : Option String → Bool
  | none => true
  | some s => s == ""

/-- From `config.ts`: `export const STARKNET_DOMAIN_ID = 25`. -/
def STARKNET_DOMAIN_ID : Nat := 25

/-- From `config.ts` `isValidBridgePair`: one side must be Starknet. -/
def isValidBridgePair (sourceDomain destDomain : Nat) : Bool :=
  sourceDomain == STARKNET_DOMAIN_ID || destDomain == STARKNET_DOMAIN_ID

/-- From `evm.ts` `FINALITY_THRESHOLD`: `{ FAST: 1000, STANDARD: 2000 }`. -/
def FINALITY_THRESHOLD_FAST : Nat := 1000

/-- From `evm.ts` `FINALITY_THRESHOLD.STANDARD`. -/
def FINALITY_THRESHOLD_STANDARD : Nat := 2000

/-- Result of `attestation.ts` `getMessageFromTx` (interface `MessageResponse`):
a message with its nonce, raw status string, and the (already-validated)
optional attestation blob. -/
structure MessageResponse where
  message : String
  eventNonce : String
  status : String
  attestation : Option String
deriving DecidableEq, Repr

/-- One element of the `messages` array in the V2 API response
(`attestation.ts` interface `MessageResponseV2`). `attestation : Option String`
models a possibly-missing JSON field. -/
structure RawMessage where
  message : String
  attestation : Option String
  eventNonce : String
  status : String
deriving DecidableEq, Repr

/-- From `attestation.ts` `getMessageFromTx`, lines 154-165: the validity test
`msg.attestation && msg.attestation !== 'PENDING' && msg.attestation.startsWith('0x')`. -/
def hasValidAttestation : Option String → Bool
  | none => false
  | some s => !(s == "") && !(s == "PENDING") && s.startsWith "0x"

/-- Pure part of `attestation.ts` `getMessageFromTx` applied to the decoded
`messages` array of a 2xx response: take the first message and blank out an
attestation field that is absent, the `'PENDING'` sentinel, or not
`0x`-prefixed.  An empty array yields `none` (the function logs and returns
`null`). -/
def getMessageFromTx : List RawMessage → Option MessageResponse
  | [] => none
  | msg :: _ =>
    some { message := msg.message
           eventNonce := msg.eventNonce
           status := msg.status
           attestation := if hasValidAttestation msg.attestation then msg.attestation else none }

/-- The attestation-service oracle for one service call: `.error` = the HTTP
call threw, `.ok v` = `getMessageFromTx` returned `v`. -/
def FetchResult : Type := Except Unit (Option MessageResponse)

/-- From `service.ts` `recordBurnTx` (lines 228-268), as a pure update of the found
row.  If the caller supplied no (truthy) `messageBytes`, the message is fetched
from the oracle; a throw or `null` is swallowed.  `message_bytes`/`nonce` are
stored through `|| null`, so falsy values become `NULL`. -/
def recordBurnTx (hashFn : String → String) (fetched : FetchResult) (now : Nat)
    (txHash : String) (messageBytes nonce : Option String) (tx : BridgeTx) : BridgeTx :=
  let fetchedMsg : Option MessageResponse :=
    if jsFalsy messageBytes then
      match fetched with
      | .ok (some md) => some md
      | _ => none
    else none
  let finalMessageBytes : Option String :=
    match fetchedMsg with
    | some md => some md.message
    | none => messageBytes
  let finalNonce : Option String :=
    match fetchedMsg with
    | some md => some md.eventNonce
    | none => nonce
  let messageHash : Option String :=
    if jsFalsy finalMessageBytes then none else finalMessageBytes.map hashFn
  { tx with
    burnTxHash := some txHash
    messageBytes := if jsFalsy finalMessageBytes then none else finalMessageBytes
    messageHash := messageHash
    nonce := if jsFalsy finalNonce then none else finalNonce
    status := .burned
    updatedAt := now }

/-- From `service.ts` `checkAttestation` (lines 316-380), as a pure function of the
found row: returns the updated row and the value returned to the caller.
Early-return branches perform no write. -/
def checkAttestation (hashFn : String → String) (fetched : FetchResult) (now : Nat)
    (tx : BridgeTx) : BridgeTx × Option String :=
  if tx.attestationStatus = .complete ∨ tx.status = .completed then
    (tx, tx.attestation)
  else if jsFalsy tx.burnTxHash then
    (tx, none)
  else
    match fetched with
    | .error _ => (tx, none)
    | .ok none =>
      ({ tx with
         attestationAttempts := tx.attestationAttempts + 1
         lastAttestationCheck := some now }, none)
    | .ok (some md) =>
      let messageHash := hashFn md.message
      if jsFalsy md.attestation then
        ({ tx with
           messageBytes := some md.message
           messageHash := some messageHash
           nonce := some md.eventNonce
           attestationAttempts := tx.attestationAttempts + 1
           lastAttestationCheck := some now
           updatedAt := now }, none)
      else
        ({ tx with
           messageBytes := some md.message
           messageHash := some messageHash
           nonce := some md.eventNonce
           attestation := md.attestation
           attestationStatus := .complete
           status := .attested
           attestationAttempts := tx.attestationAttempts + 1
           lastAttestationCheck := some now
           updatedAt := now }, md.attestation)

/-- Typed error taxonomy for the thrown `Error` strings of the orchestrator and
payload builders: `invalidPair` = "Invalid bridge pair: must involve Starknet",
`unknownChain` = "Invalid source or destination domain" / "... chain config not
found" / "Unknown destination domain", `unsupportedRoute` = "Cannot bridge from
X to Y" / "Source domain is not an EVM chain". -/
inductive BridgeError
  | invalidPair
  | unknownChain
  | unsupportedRoute
deriving DecidableEq, Repr

/-- From `config.ts` `DOMAIN_IDS.SOLANA`. -/
def SOLANA_DOMAIN_ID : Nat := 5

/-- Routing/validation part of `evm.ts` `buildDepositForBurnTx`: the ABI payload
itself is opaque to the claims, so a successful build is `()`.  All three
destination families have a recipient conversion, so only missing configs or a
non-EVM source throw. -/
def buildDepositForBurnTx (cfgs : Registry) (sourceDomainId destinationDomain : Nat) :
    Except BridgeError Unit :=
  match cfgs sourceDomainId with
  | none => .error .unknownChain
  | some sourceConfig =>
    if sourceConfig.type ≠ .evm then .error .unsupportedRoute
    else
      match cfgs destinationDomain with
      | none => .error .unknownChain
      | some _ => .ok ()

/-- Routing part of `starknet.ts` `buildStarknetBurnCall`: requires the Starknet
config and the destination config; converts the recipient for `evm`/`solana`
destinations and throws "Cannot bridge from Starknet to ..." otherwise. -/
def buildStarknetBurnCall (cfgs : Registry) (destinationDomain : Nat) :
    Except BridgeError Unit :=
  match cfgs STARKNET_DOMAIN_ID with
  | none => .error .unknownChain
  | some _ =>
    match cfgs destinationDomain with
    | none => .error .unknownChain
    | some destConfig =>
      match destConfig.type with
      | .evm => .ok ()
      | .solana => .ok ()
      | .starknet => .error .unsupportedRoute

/-- Routing part of `starknet.ts` `buildStarknetApproveCall`: only needs the
Starknet config. -/
def buildStarknetApproveCall (cfgs : Registry) : Except BridgeError Unit :=
  match cfgs STARKNET_DOMAIN_ID with
  | none => .error .unknownChain
  | some _ => .ok ()

/-- From `starknet.ts` `buildStarknetBurnMulticall`: approve call then burn call. -/
def buildStarknetBurnMulticall (cfgs : Registry) (destinationDomain : Nat) :
    Except BridgeError Unit :=
  match cfgs STARKNET_DOMAIN_ID with
  | none => .error .unknownChain
  | some _ =>
    match buildStarknetApproveCall cfgs with
    | .error e => .error e
    | .ok _ => buildStarknetBurnCall cfgs destinationDomain

/-- Routing part of `solana.ts` `buildSolanaBurnInstruction`: needs the Solana
config (looked up at the fixed Solana domain) and the destination config;
converts the recipient for `starknet`/`evm` destinations and throws
"Cannot bridge from Solana to ..." otherwise. -/
def buildSolanaBurnInstruction (cfgs : Registry) (destinationDomain : Nat) :
    Except BridgeError Unit :=
  match cfgs SOLANA_DOMAIN_ID with
  | none => .error .unknownChain
  | some _ =>
    match cfgs destinationDomain with
    | none => .error .unknownChain
    | some destConfig =>
      match destConfig.type with
      | .starknet => .ok ()
      | .evm => .ok ()
      | .solana => .error .unsupportedRoute

/-- From `service.ts` `buildBurnTxData` (lines 434-498): dispatch on the source
chain family. -/
def buildBurnTxData (cfgs : Registry) (sourceConfig : ChainConfig) (destinationDomain : Nat) :
    Except BridgeError Unit :=
  match sourceConfig.type with
  | .evm => buildDepositForBurnTx cfgs sourceConfig.domainId destinationDomain
  | .starknet => buildStarknetBurnMulticall cfgs destinationDomain
  | .solana => buildSolanaBurnInstruction cfgs destinationDomain

/-- Parameters of `CCTPService.initiateBridge` (`InitiateBridgeParams`).
`isFastTransfer : Option Bool` models the optional field (`none` = absent). -/
structure InitiateBridgeParams where
  userAddress : String
  sourceDomain : Nat
  destDomain : Nat
  amount : String
  recipientAddress : String
  isFastTransfer : Option Bool
deriving DecidableEq, Repr

/-- What `initiateBridge` produces: the inserted row plus the finality/fee
selection passed into the burn payload build. -/
structure InitResult where
  record : BridgeTx
  minFinalityThreshold : Nat
  maxFee : Nat
deriving DecidableEq, Repr

/-- From `service.ts` `initiateBridge` (lines 170-223): validate the pair, validate
both configs, insert the row (`status='initiated'`, `attestation_status='pending'`),
select finality/fee from `isFastTransfer !== false`, then build the burn payload. -/
def initiateBridge (cfgs : Registry) (now : Nat) (newId : String) (p : InitiateBridgeParams) :
    Except BridgeError InitResult :=
  if ¬ isValidBridgePair p.sourceDomain p.destDomain then .error .invalidPair
  else
    match cfgs p.sourceDomain, cfgs p.destDomain with
    | some sourceConfig, some _ =>
      let record : BridgeTx :=
        { id := newId
          userAddress := p.userAddress
          sourceDomainId := p.sourceDomain
          destDomainId := p.destDomain
          amount := p.amount
          recipientAddress := p.recipientAddress
          burnTxHash := none
          messageHash := none
          messageBytes := none
          nonce := none
          attestation := none
          attestationStatus := .pending
          attestationAttempts := 0
          lastAttestationCheck := none
          mintTxHash := none
          status := .initiated
          errorMessage := none
          createdAt := now
          updatedAt := now }
      let isFast := p.isFastTransfer != some false
      let minFinalityThreshold := if isFast then 1000 else 2000
      let maxFee := if isFast then 10000 else 0
      match buildBurnTxData cfgs sourceConfig p.destDomain with
      | .error e => .error e
      | .ok _ =>
        .ok { record := record, minFinalityThreshold := minFinalityThreshold, maxFee := maxFee }
    | _, _ => .error .unknownChain

/-- From `service.ts` `recordMintTx` (lines 385-392): unconditional single-row update. -/
def recordMintTx (now : Nat) (txHash : String) (tx : BridgeTx) : BridgeTx :=
  { tx with mintTxHash := some txHash, status := .completed, updatedAt := now }

/-- From `service.ts` `markFailed` (lines 397-404): unconditional single-row update. -/
def markFailed (now : Nat) (errorMessage : String) (tx : BridgeTx) : BridgeTx :=
  { tx with status := .failed, errorMessage := some errorMessage, updatedAt := now }

/-! ## Attestation worker (`attestation-worker.ts`) -/

/-- From `attestation-worker.ts`: `BASE_DELAY = 2000`. -/
def BASE_DELAY : ℚ := 2000

/-- From `attestation-worker.ts`: `MAX_DELAY = 60000`. -/
def MAX_DELAY : ℚ := 60000

/-- From `attestation-worker.ts`: `MAX_ATTEMPTS = 120`. -/
def MAX_ATTEMPTS : Nat := 120

/-- From `attestation-worker.ts` `calculateBackoff` (lines 194-200).  `Math.pow(1.5,
attempts)` is modelled as exact rational arithmetic `(3/2)^attempts`, the
`Math.random()` draw as a rational argument `r ∈ [0,1)`, and `Math.floor` as
`Int.floor`. -/
def calculateBackoff (attempts : Nat) (r : ℚ) : ℤ :=
  let exponentialDelay := min (BASE_DELAY * (3 / 2) ^ attempts) MAX_DELAY
  let jitter := r * (3 / 10) * exponentialDelay
  ⌊exponentialDelay + jitter⌋

/-- One entry of the worker's `jobs : Map<string, AttestationJob>` (the map key
`id` is kept outside the record). -/
structure AttestationJob where
  messageHash : String
  attempts : Nat
  nextRetry : ℤ
deriving DecidableEq, Repr

/-- Worker-process state relevant to one poll step: the in-memory job map and
the `bridge_transactions` store (a row per bridge id). -/
structure WorkerSt where
  jobs : String → Option AttestationJob
  store : String → BridgeTx

/-- From `attestation-worker.ts` `processJob` (lines 264-296) on the job keyed by
`id`: run `checkAttestation` against the store; on a truthy attestation delete
the job; otherwise increment the attempt count and either mark the transfer
failed (at `MAX_ATTEMPTS`) or reschedule with backoff.  `dbNow` is the SQL
`NOW()`, `now`/`r` the scheduler clock and jitter draw.  (The `catch` branch of
the source only fires if the store itself throws, which the embedding's pure
store cannot.) -/
def processJobGo (dbNow : Nat) (now : ℤ) (r : ℚ) (id : String) (s : WorkerSt)
    (checked : BridgeTx × Option String) : Option AttestationJob → WorkerSt
  | none => s
  | some job =>
    let store1 : String → BridgeTx := fun j => if j = id then checked.1 else s.store j
    if !(jsFalsy checked.2) then
      { jobs := fun j => if j = id then none else s.jobs j, store := store1 }
    else
      let attempts1 := job.attempts + 1
      if MAX_ATTEMPTS ≤ attempts1 then
        { jobs := fun j => if j = id then none else s.jobs j
          store := fun j =>
            if j = id then
              markFailed dbNow
                ("Attestation timeout after " ++ toString MAX_ATTEMPTS ++ " attempts") checked.1
            else s.store j }
      else
        { jobs := fun j =>
            if j = id then
              some { job with attempts := attempts1, nextRetry := now + calculateBackoff attempts1 r }
            else s.jobs j
          store := store1 }

/-- Entry point of one `processJob` call: look the job up and dispatch on the
`checkAttestation` outcome (an untracked id is a no-op; the source never calls
`checkAttestation` in that case, and the embedding's call is pure). -/
def processJob (hashFn : String → String) (fetched : FetchResult) (dbNow : Nat)
    (now : ℤ) (r : ℚ) (id : String) (s : WorkerSt) : WorkerSt :=
  processJobGo dbNow now r id s (checkAttestation hashFn fetched dbNow (s.store id)) (s.jobs id)

/-- Inputs consumed by one `processJob` invocation: the attestation-service
oracle and the clocks/jitter of that invocation. -/
structure PollInput where
  fetched : FetchResult
  dbNow : Nat
  now : ℤ
  r : ℚ

/-- A run of the poller on the job keyed by `id`: `processJob` once per input. -/
def runPoll (hashFn : String → String) (id : String) : List PollInput → WorkerSt → WorkerSt
  | [], s => s
  | i :: is, s => runPoll hashFn id is (processJob hashFn i.fetched i.dbNow i.now i.r id s)

/-! ## Address translation and felt chunking (`evm.ts`, `starknet.ts`) -/

/-- A hex nibble; a hex string stripped of its `0x` prefix is a `List HexDigit`. -/
abbrev HexDigit : Type := Fin 16

/-- From `evm.ts` `addressToBytes32` (lines 81-85): strip `0x`, lowercase, then
`padStart(64, '0')` — left-pad the nibble list to 64 with zeros. -/
def addressToBytes32 (address : List HexDigit) : List HexDigit :=
  List.replicate (64 - address.length) (0 : Fin 16) ++ address

/-- From `evm.ts` `starknetAddressToBytes32` (lines 90-94): identical left-padding;
a full 64-nibble Starknet word passes through. -/
def starknetAddressToBytes32 (address : List HexDigit) : List HexDigit :=
  List.replicate (64 - address.length) (0 : Fin 16) ++ address

/-- Extraction inverse used by the round-trip property: read the low 20 bytes
(last 40 nibbles) out of a bytes32 word. -/
def bytes32ToEvmAddress (word : List HexDigit) : List HexDigit :=
  word.drop 24

/-- From `starknet.ts` `evmAddressToU256` (lines 41-48): parse the address as an
integer and split it `cairo.uint256`-style into `(low, high)` 128-bit limbs. -/
def evmAddressToU256 (address : Nat) : Nat × Nat :=
  (address % 2 ^ 128, address / 2 ^ 128)

/-- From `starknet.ts` `hexToFeltArray` (lines 180-192): strip `0x` and split the
nibble list into consecutive chunks of 62 nibbles (31 bytes); the final chunk
may be shorter. -/
def hexToFeltArray (hex : List HexDigit) : List (List HexDigit) :=
  if h : hex = [] then []
  else hex.take 62 :: hexToFeltArray (hex.drop 62)
termination_by hex.length
decreasing_by
  have hpos : 0 < hex.length := List.length_pos.mpr h
  simp only [List.length_drop]
  omega

/-- One felt pushed onto Starknet calldata by `buildStarknetMintCall`: either a
chunk-count prefix (`messageBytes.length.toString()`) or a `0x`-chunk. -/
inductive FeltEntry
  | len (n : Nat)
  | chunk (c : List HexDigit)
deriving DecidableEq, Repr

/-- Calldata layout of `starknet.ts` `buildStarknetMintCall` (lines 153-174):
`[messageBytes.length, ...messageBytes, attestationBytes.length,
...attestationBytes]` where both byte sequences are felt-chunked. -/
def buildStarknetMintCalldata (message attestation : List HexDigit) : List FeltEntry :=
  let messageBytes := hexToFeltArray message
  let attestationBytes := hexToFeltArray attestation
  FeltEntry.len messageBytes.length :: messageBytes.map FeltEntry.chunk
    ++ FeltEntry.len attestationBytes.length :: attestationBytes.map FeltEntry.chunk

/-- Read `n` chunk entries off the front of a calldata suffix. -/
def takeChunks : Nat → List FeltEntry → Option (List (List HexDigit) × List FeltEntry)
  | 0, rest => some ([], rest)
  | n + 1, FeltEntry.chunk c :: rest =>
    (takeChunks n rest).map fun p => (c :: p.1, p.2)
  | _ + 1, _ => none

/-- Decoder step: after the message chunks, expect the attestation chunk count
and exactly that many chunks, then flatten both sections. -/
def decodeAttSection (messageChunks : List (List HexDigit)) :
    Option (List (List HexDigit) × List FeltEntry) → Option (List HexDigit × List HexDigit)
  | some (attChunks, []) => some (messageChunks.flatten, attChunks.flatten)
  | _ => none

/-- Decoder step: consume the attestation length prefix. -/
def decodeTail : List (List HexDigit) × List FeltEntry → Option (List HexDigit × List HexDigit)
  | (messageChunks, FeltEntry.len k :: rest2) =>
    decodeAttSection messageChunks (takeChunks k rest2)
  | _ => none

/-- Decode the length-prefixed mint calldata back into the message and
attestation nibble sequences. -/
def decodeMintCalldata : List FeltEntry → Option (List HexDigit × List HexDigit)
  | FeltEntry.len n :: rest => (takeChunks n rest).bind decodeTail
  | _ => none

/-! ## Operation sequences over one bridge row (for the lifecycle invariant) -/

/-- One orchestrator operation applied to a bridge row, with its oracle inputs. -/
inductive Op
  | recordBurn (fetched : FetchResult) (now : Nat) (txHash : String)
      (messageBytes nonce : Option String)
  | checkAtt (fetched : FetchResult) (now : Nat)
  | recordMint (now : Nat) (txHash : String)
  | markFail (now : Nat) (message : String)

/-- Apply one operation (the state effect of the corresponding service method). -/
def applyOp (hashFn : String → String) : Op → BridgeTx → BridgeTx
  | .recordBurn f now h mb n, tx => recordBurnTx hashFn f now h mb n tx
  | .checkAtt f now, tx => (checkAttestation hashFn f now tx).1
  | .recordMint now h, tx => recordMintTx now h tx
  | .markFail now m, tx => markFailed now m tx

/-- The phase at which each operation is intended to run (the guards the API
routes and worker enforce before invoking the service). -/
def phaseOK : Op → BridgeTx → Prop
  | .recordBurn _ _ _ _ _, tx => tx.status = .initiated
  | .checkAtt _ _, tx => tx.status = .burned
  | .recordMint _ _, tx => tx.status = .attested
  | .markFail _ _, _ => True

/-- Position of a status on the chain `initiated → burned → attested → minting
→ completed`; `failed` is off-chain and handled separately. -/
def rank : BridgeStatus → Nat
  | .initiated => 0
  | .burned => 1
  | .attested => 2
  | .minting => 3
  | .completed => 4
  | .failed => 5

/-- Admissible observed transition: either into `failed`, or forward (weakly)
along the chain from a non-`failed` status. -/
def stepOK (a b : BridgeStatus) : Prop :=
  b = .failed ∨ (a ≠ .failed ∧ rank a ≤ rank b)

/-- A run in which every operation is applied at its intended phase. -/
def phasedRun (hashFn : String → String) : BridgeTx → List Op → Prop
  | _, [] => True
  | tx, op :: ops => phaseOK op tx ∧ phasedRun hashFn (applyOp hashFn op tx) ops

/-- The statuses observed after each operation of a run. -/
def statusTrace (hashFn : String → String) : BridgeTx → List Op → List BridgeStatus
  | _, [] => []
  | tx, op :: ops => (applyOp hashFn op tx).status :: statusTrace hashFn (applyOp hashFn op tx) ops

/-! ## Burn-recording endpoint (`routes/api/bridge/[id]/burn/+server.ts`) -/

/-- Typed errors returned by the burn endpoint: missing `txHash` (400),
"Bridge transaction not found" (404), "Burn transaction already recorded" (400). -/
inductive BurnError
  | missingTxHash
  | notFound
  | alreadyBurned
deriving DecidableEq, Repr

/-- The `POST /api/bridge/[id]/burn` handler composed with
`CCTPService.recordBurnTx`: validate `txHash`, look the row up, reject when a
burn hash is already recorded (truthy `tx.burnTxHash`), otherwise apply the
service update.  The returned pair is the row after the call plus the error, if
any; every error path returns before any write. -/
def burnPOST (hashFn : String → String) (fetched : FetchResult) (now : Nat)
    (txHash messageBytes nonce : Option String)
    (txRow : Option BridgeTx) : Option BridgeTx × Option BurnError :=
  match txHash with
  | none => (txRow, some .missingTxHash)
  | some h =>
    if h == "" then (txRow, some .missingTxHash)
    else
      match txRow with
      | none => (none, some .notFound)
      | some tx =>
        if !(jsFalsy tx.burnTxHash) then (some tx, some .alreadyBurned)
        else (some (recordBurnTx hashFn fetched now h messageBytes nonce tx), none)

/-! ## Predicates and sample fixtures used by the claims -/

/-- A "not ready" attestation-service interaction: the call threw, returned no
message, or returned a message whose (validated) attestation field is falsy. -/
def notReadyFetch : FetchResult → Prop
  | .ok (some md) => jsFalsy md.attestation = true
  | _ => True

/-- Coherence of the loaded chain registry with the production `supported_chains`
rows: a config is stored under its own domain id, the `starknet` family lives
exactly at the mandatory `STARKNET_DOMAIN_ID`, and the `solana` family only at
`DOMAIN_IDS.SOLANA`. -/
def registryWF (cfgs : Registry) : Prop :=
  ∀ d c, cfgs d = some c →
    c.domainId = d ∧ (c.type = .starknet ↔ d = STARKNET_DOMAIN_ID) ∧
    (c.type = .solana → d = SOLANA_DOMAIN_ID)

/-- The backoff contract (amended form): the computed delay is the floored
jittered delay; the pre-jitter delay is non-decreasing in the attempt count;
below the cap the result sits in `[⌊base·1.5^n⌋, base·1.5^n·1.3]`; and the
result never exceeds `cap·1.3`. -/
def backoffClaim (n : Nat) (r : ℚ) : Prop :=
  (calculateBackoff n r =
    ⌊min (BASE_DELAY * (3 / 2) ^ n) MAX_DELAY +
      r * (3 / 10) * min (BASE_DELAY * (3 / 2) ^ n) MAX_DELAY⌋) ∧
  (∀ m : Nat,
    min (BASE_DELAY * (3 / 2) ^ m) MAX_DELAY ≤
      min (BASE_DELAY * (3 / 2) ^ (m + 1)) MAX_DELAY) ∧
  (BASE_DELAY * (3 / 2) ^ n ≤ MAX_DELAY →
    ⌊BASE_DELAY * (3 / 2 : ℚ) ^ n⌋ ≤ calculateBackoff n r ∧
    (calculateBackoff n r : ℚ) ≤ BASE_DELAY * (3 / 2) ^ n * (13 / 10)) ∧
  (calculateBackoff n r : ℚ) ≤ MAX_DELAY * (13 / 10)

/-- A freshly initiated sample row (what `initiateBridge` inserts). -/
def sampleInitiatedTx : BridgeTx :=
  { id := "bridge-1"
    userAddress := "0xaa"
    sourceDomainId := 0
    destDomainId := 25
    amount := "1000000"
    recipientAddress := "0xbb"
    burnTxHash := none
    messageHash := none
    messageBytes := none
    nonce := none
    attestation := none
    attestationStatus := .pending
    attestationAttempts := 0
    lastAttestationCheck := none
    mintTxHash := none
    status := .initiated
    errorMessage := none
    createdAt := 1
    updatedAt := 1 }

/-- A sample row whose attestation already completed. -/
def sampleCompleteTx : BridgeTx :=
  { sampleInitiatedTx with
    burnTxHash := some "0xburn"
    messageHash := some "0xhash"
    messageBytes := some "0xbytes"
    nonce := some "7"
    attestation := some "0xsig"
    attestationStatus := .complete
    status := .attested
    updatedAt := 3 }

/-- A sample row sitting in `burned` waiting for its attestation. -/
def sampleBurnedTx : BridgeTx :=
  { sampleInitiatedTx with
    burnTxHash := some "0xburn"
    status := .burned
    updatedAt := 2 }

/-- Sample Starknet chain config (domain 25). -/
def starknetSampleConfig : ChainConfig :=
  { domainId := 25
    type := .starknet
    tokenMessenger := "0xtm-sn"
    messageTransmitter := "0xmt-sn"
    usdc := "0xusdc-sn"
    chainId := "SN_MAIN" }

/-- Sample Ethereum chain config (domain 0). -/
def ethereumSampleConfig : ChainConfig :=
  { domainId := 0
    type := .evm
    tokenMessenger := "0xtm-eth"
    messageTransmitter := "0xmt-eth"
    usdc := "0xusdc-eth"
    chainId := "1" }

/-- Sample registry holding Ethereum (domain 0) and Starknet (domain 25). -/
def sampleRegistry : Registry := fun d =>
  if d = 25 then some starknetSampleConfig
  else if d = 0 then some ethereumSampleConfig
  else none

/-- Sample initiate-bridge request, Ethereum → Starknet, speed left unset. -/
def sampleParams : InitiateBridgeParams :=
  { userAddress := "0xaa"
    sourceDomain := 0
    destDomain := 25
    amount := "1000000"
    recipientAddress := "0xbb"
    isFastTransfer := none }

/-- Sample complete message returned by the attestation service. -/
def sampleMessageResponse : MessageResponse :=
  { message := "0xdead"
    eventNonce := "42"
    status := "complete"
    attestation := some "0xsig" }

/-- A sample tracked job one attempt away from the poll limit. -/
def sampleJob : AttestationJob :=
  { messageHash := "0xhash", attempts := 119, nextRetry := 0 }

/-- A sample worker state tracking `sampleJob` over a store of burned rows. -/
def sampleWorkerSt : WorkerSt :=
  { jobs := fun j => if j = "bridge-1" then some sampleJob else none
    store := fun _ => sampleBurnedTx }

/-- A sample poll step whose oracle reports "message not found yet". -/
def samplePollInput : PollInput :=
  { fetched := .ok none, dbNow := 5, now := 0, r := 0 }

/-- A sample phase-ordered run: record the burn, observe the attestation,
record the mint. -/
def sampleOps : List Op :=
  [Op.recordBurn (.ok none) 2 "0xburn" none none,
   Op.checkAtt (.ok (some sampleMessageResponse)) 3,
   Op.recordMint 4 "0xmint"]

/-- What `initiateBridge` returns on `sampleParams` over `sampleRegistry`. -/
def sampleInitResult : InitResult :=
  { record := sampleInitiatedTx, minFinalityThreshold := 1000, maxFee := 10000 }

/-- The route-validation contract of `initiateBridge`: it fails with
`InvalidPair` exactly when neither domain is the mandatory Starknet endpoint,
and succeeds exactly when exactly one of the two domains is. -/
def routeValidationClaim (cfgs : Registry) (now : Nat) (newId : String)
    (p : InitiateBridgeParams) : Prop :=
  (initiateBridge cfgs now newId p = .error .invalidPair ↔
    (p.sourceDomain ≠ STARKNET_DOMAIN_ID ∧ p.destDomain ≠ STARKNET_DOMAIN_ID)) ∧
  ((∃ res, initiateBridge cfgs now newId p = .ok res) ↔
    ((p.sourceDomain = STARKNET_DOMAIN_ID ∧ p.destDomain ≠ STARKNET_DOMAIN_ID) ∨
     (p.sourceDomain ≠ STARKNET_DOMAIN_ID ∧ p.destDomain = STARKNET_DOMAIN_ID)))

/-! ## Theorems -/

/-- A string with the `0x` prefix is nonempty. -/
theorem startsWith_hex_ne_empty (s : String) (h : s.startsWith "0x" = true) : s ≠ "" := by
  intro he
  subst he
  exact absurd h (by decide)

/-- C3: on a row whose `attestationStatus` is already `complete` (or whose
`status` is `completed`), `checkAttestation` writes nothing and returns the
stored attestation, whatever the attestation service would answer; hence two
sequential calls return the same attestation and leave the row unchanged. -/
theorem checkAttestation_complete_noop
    (hashFn : String → String) (f1 f2 : FetchResult) (n1 n2 : Nat) (tx : BridgeTx)
    (h : tx.attestationStatus = .complete ∨ tx.status = .completed) :
    checkAttestation hashFn f1 n1 tx = (tx, tx.attestation) ∧
    checkAttestation hashFn f2 n2 tx = (tx, tx.attestation) := by
  unfold checkAttestation
  rw [if_pos h, if_pos h]
  exact ⟨rfl, rfl⟩

/-- Witness for C3 at a concrete attested row and two different oracle answers. -/
theorem checkAttestation_complete_noop_witness :
    (sampleCompleteTx.attestationStatus = .complete ∨ sampleCompleteTx.status = .completed) ∧
    (checkAttestation id (.ok none) 5 sampleCompleteTx = (sampleCompleteTx, some "0xsig") ∧
     checkAttestation id (.error ()) 6 sampleCompleteTx = (sampleCompleteTx, some "0xsig")) :=
  ⟨Or.inl rfl, checkAttestation_complete_noop id (.ok none) (.error ()) 5 6
    sampleCompleteTx (Or.inl rfl)⟩

/-- C7: translating each address family into the 32-byte word format and
extracting it back recovers the original address: a 40-nibble EVM address is
left-zero-padded (its low 20 bytes are the original), a full 64-nibble word
passes through unchanged, and the `u256` split of an EVM address satisfies
`low + high·2^128 = address`. -/
theorem address_translation_round_trip
    (a w : List HexDigit) (v : Nat) (ha : a.length = 40) (hw : w.length = 64) :
    bytes32ToEvmAddress (addressToBytes32 a) = a ∧
    (addressToBytes32 a).length = 64 ∧
    starknetAddressToBytes32 w = w ∧
    (evmAddressToU256 v).1 + (evmAddressToU256 v).2 * 2 ^ 128 = v := by
  refine ⟨?_, ?_, ?_, ?_⟩
  · unfold bytes32ToEvmAddress addressToBytes32
    rw [ha]
    exact List.drop_left' (by simp)
  · simp [addressToBytes32, ha]
  · unfold starknetAddressToBytes32
    rw [hw]
    simp
  · exact Nat.mod_add_div' v (2 ^ 128)

/-- Witness for C7 at concrete 40- and 64-nibble addresses. -/
theorem address_translation_round_trip_witness :
    ((List.replicate 40 (1 : Fin 16)).length = 40 ∧
     (List.replicate 64 (2 : Fin 16)).length = 64) ∧
    (bytes32ToEvmAddress (addressToBytes32 (List.replicate 40 (1 : Fin 16))) =
        List.replicate 40 (1 : Fin 16) ∧
     (addressToBytes32 (List.replicate 40 (1 : Fin 16))).length = 64 ∧
     starknetAddressToBytes32 (List.replicate 64 (2 : Fin 16)) =
        List.replicate 64 (2 : Fin 16) ∧
     (evmAddressToU256 (2 ^ 130 + 77)).1 + (evmAddressToU256 (2 ^ 130 + 77)).2 * 2 ^ 128 =
        2 ^ 130 + 77) :=
  ⟨⟨by simp, by simp⟩,
   address_translation_round_trip (List.replicate 40 (1 : Fin 16))
     (List.replicate 64 (2 : Fin 16)) (2 ^ 130 + 77) (by simp) (by simp)⟩

/-- C9: the message-lookup result carries an attestation exactly when the raw
field of the first returned message is that value, it is not the `'PENDING'`
sentinel, and it is `0x`-prefixed; a sentinel or non-hex-prefixed value is
treated as absent. -/
theorem getMessageFromTx_attestation_iff
    (m : RawMessage) (rest : List RawMessage) (a : String) :
    (getMessageFromTx (m :: rest)).map MessageResponse.attestation = some (some a) ↔
      (m.attestation = some a ∧ a ≠ "PENDING" ∧ a.startsWith "0x" = true) := by
  have hred : (getMessageFromTx (m :: rest)).map MessageResponse.attestation =
      some (if hasValidAttestation m.attestation then m.attestation else none) := rfl
  rw [hred]
  constructor
  · intro h
    have h' := Option.some.inj h
    by_cases hv : hasValidAttestation m.attestation = true
    · rw [if_pos hv] at h'
      rw [h'] at hv
      simp only [hasValidAttestation] at hv
      rw [Bool.and_eq_true, Bool.and_eq_true] at hv
      obtain ⟨⟨_, h2⟩, h3⟩ := hv
      refine ⟨h', ?_, h3⟩
      intro hpe
      rw [hpe] at h2
      simp at h2
    · rw [if_neg hv] at h'
      exact Option.noConfusion h'
  · rintro ⟨hm, hp, hx⟩
    have hne : a ≠ "" := startsWith_hex_ne_empty a hx
    have hv : hasValidAttestation m.attestation = true := by
      rw [hm]
      simp only [hasValidAttestation]
      rw [Bool.and_eq_true, Bool.and_eq_true]
      refine ⟨⟨?_, ?_⟩, hx⟩
      · simp [hne]
      · simp [hp]
    rw [if_pos hv, hm]

/-- C5: once a burn has been recorded with hash `h`, a second POST with the
same id and hash fails with `AlreadyBurned` and leaves the row exactly as the
first call left it; the first call indeed stored `h` as the burn hash. -/
theorem recordBurn_dedup
    (hashFn : String → String) (f1 f2 : FetchResult) (n1 n2 : Nat) (h : String)
    (mb nonce mb2 nonce2 : Option String) (tx tx1 : BridgeTx)
    (hfirst : burnPOST hashFn f1 n1 (some h) mb nonce (some tx) = (some tx1, none)) :
    burnPOST hashFn f2 n2 (some h) mb2 nonce2 (some tx1) = (some tx1, some .alreadyBurned) ∧
    tx1.burnTxHash = some h := by
  simp only [burnPOST] at hfirst ⊢
  by_cases he : (h == "") = true
  · rw [if_pos he] at hfirst
    exact absurd (congrArg Prod.snd hfirst) (by simp)
  · rw [if_neg he] at hfirst
    by_cases hb : (!(jsFalsy tx.burnTxHash)) = true
    · rw [if_pos hb] at hfirst
      exact absurd (congrArg Prod.snd hfirst) (by simp)
    · rw [if_neg hb] at hfirst
      have htx1 : recordBurnTx hashFn f1 n1 h mb nonce tx = tx1 :=
        Option.some.inj (congrArg Prod.fst hfirst)
      have hhash : tx1.burnTxHash = some h := by
        rw [← htx1]
        rfl
      refine ⟨?_, hhash⟩
      rw [if_neg he]
      have hb1 : (!(jsFalsy tx1.burnTxHash)) = true := by
        rw [hhash]
        show (!(h == "")) = true
        exact (Bool.not_eq_true' _).symm ▸ (by
          cases hbe : (h == "") with
          | true => exact absurd hbe he
          | false => simp)
      rw [if_pos hb1]

/-- C6: whenever `initiateBridge` succeeds, the finality threshold and max fee
it selected are determined by the fast flag alone: fast (the default) gives the
low-latency tier 1000 and the 10000-unit fee floor, standard gives the
finalized tier 2000 and zero fee. -/
theorem initiateBridge_finality_fee
    (cfgs : Registry) (now : Nat) (newId : String) (p : InitiateBridgeParams) (res : InitResult)
    (h : initiateBridge cfgs now newId p = .ok res) :
    res.minFinalityThreshold =
      (if p.isFastTransfer != some false then FINALITY_THRESHOLD_FAST
       else FINALITY_THRESHOLD_STANDARD) ∧
    res.maxFee = (if p.isFastTransfer != some false then 10000 else 0) := by
  unfold initiateBridge at h
  split at h
  · exact Except.noConfusion h
  · split at h
    · split at h
      · exact Except.noConfusion h
      · have hres := Except.ok.inj h
        rw [← hres]
        by_cases hf : (p.isFastTransfer != some false) = true
        · simp [hf, FINALITY_THRESHOLD_FAST]
        · simp [eq_false_of_ne_true hf, FINALITY_THRESHOLD_STANDARD]
    · exact Except.noConfusion h

/-- Witness for C6: the sample Ethereum → Starknet request with the speed flag
left unset selects the fast tier and fee floor. -/
theorem initiateBridge_finality_fee_witness :
    initiateBridge sampleRegistry 1 "bridge-1" sampleParams = .ok sampleInitResult ∧
    (sampleInitResult.minFinalityThreshold =
      (if sampleParams.isFastTransfer != some false then FINALITY_THRESHOLD_FAST
       else FINALITY_THRESHOLD_STANDARD) ∧
     sampleInitResult.maxFee = (if sampleParams.isFastTransfer != some false then 10000 else 0)) :=
  ⟨rfl, initiateBridge_finality_fee sampleRegistry 1 "bridge-1" sampleParams sampleInitResult rfl⟩

/-- Evaluation of `buildBurnTxData` over a coherent registry: the build fails
(with the unsupported-route error) exactly on Starknet→Starknet and
Solana→Solana routes, and succeeds on every other pair of registered configs. -/
theorem buildBurnTxData_cases
    (cfgs : Registry) (cs cd : ChainConfig) (X Y : Nat)
    (hwf : registryWF cfgs) (hs : cfgs X = some cs) (hd : cfgs Y = some cd) :
    buildBurnTxData cfgs cs Y =
      (if cs.type = .starknet ∧ cd.type = .starknet then .error .unsupportedRoute
       else if cs.type = .solana ∧ cd.type = .solana then .error .unsupportedRoute
       else .ok ()) := by
  obtain ⟨hdom, hsn, hsol⟩ := hwf X cs hs
  obtain ⟨hdomd, hsnd, hsold⟩ := hwf Y cd hd
  cases hcs : cs.type with
  | evm =>
    simp only [buildBurnTxData, hcs, buildDepositForBurnTx, hdom, hs]
    rw [hd]
    simp [hcs]
  | starknet =>
    have hX : X = STARKNET_DOMAIN_ID := hsn.mp hcs
    have hsn25 : cfgs STARKNET_DOMAIN_ID = some cs := by rw [← hX]; exact hs
    simp only [buildBurnTxData, hcs, buildStarknetBurnMulticall, hsn25,
      buildStarknetApproveCall, buildStarknetBurnCall]
    rw [hd]
    cases hcd : cd.type with
    | evm => simp [hcs, hcd]
    | solana => simp [hcs, hcd]
    | starknet => simp [hcs, hcd]
  | solana =>
    have hX : X = SOLANA_DOMAIN_ID := hsol hcs
    have hsol5 : cfgs SOLANA_DOMAIN_ID = some cs := by rw [← hX]; exact hs
    simp only [buildBurnTxData, hcs, buildSolanaBurnInstruction, hsol5]
    rw [hd]
    cases hcd : cd.type with
    | evm => simp [hcs, hcd]
    | solana => simp [hcs, hcd]
    | starknet => simp [hcs, hcd]

/-- Evaluation of `initiateBridge` once the pair is valid and both configs are
registered: the result is the burn build's error, or success. -/
theorem initiateBridge_eval
    (cfgs : Registry) (now : Nat) (newId : String) (p : InitiateBridgeParams)
    (cs cd : ChainConfig)
    (hv : isValidBridgePair p.sourceDomain p.destDomain = true)
    (hs : cfgs p.sourceDomain = some cs) (hd : cfgs p.destDomain = some cd) :
    ((∃ res, initiateBridge cfgs now newId p = .ok res) ↔
      buildBurnTxData cfgs cs p.destDomain = .ok ()) ∧
    (∀ e, buildBurnTxData cfgs cs p.destDomain = .error e →
      initiateBridge cfgs now newId p = .error e) := by
  unfold initiateBridge
  rw [if_neg (not_not_intro hv), hs, hd]
  dsimp only
  constructor
  · cases hb : buildBurnTxData cfgs cs p.destDomain with
    | error e => simp [hb]
    | ok u => cases u; simp [hb]
  · intro e he
    rw [he]

/-- C2: over a coherent registry with both domains registered, `initiateBridge`
fails with `InvalidPair` exactly when neither domain is the mandatory Starknet
endpoint (domain 25), and succeeds exactly when exactly one of the two domains
is the Starknet endpoint (a Starknet→Starknet pair passes the pair check but
fails the payload build). -/
theorem initiateBridge_route_validation
    (cfgs : Registry) (now : Nat) (newId : String) (p : InitiateBridgeParams)
    (cs cd : ChainConfig)
    (hwf : registryWF cfgs)
    (hs : cfgs p.sourceDomain = some cs) (hd : cfgs p.destDomain = some cd) :
    routeValidationClaim cfgs now newId p := by
  have hbuild := buildBurnTxData_cases cfgs cs cd p.sourceDomain p.destDomain hwf hs hd
  have hcssn : cs.type = .starknet ↔ p.sourceDomain = STARKNET_DOMAIN_ID :=
    (hwf p.sourceDomain cs hs).2.1
  have hcdsn : cd.type = .starknet ↔ p.destDomain = STARKNET_DOMAIN_ID :=
    (hwf p.destDomain cd hd).2.1
  by_cases hx : p.sourceDomain = STARKNET_DOMAIN_ID <;>
    by_cases hy : p.destDomain = STARKNET_DOMAIN_ID
  · -- both domains are Starknet: valid pair, unsupported route
    have hv : isValidBridgePair p.sourceDomain p.destDomain = true := by
      simp [isValidBridgePair, hx]
    have heval := initiateBridge_eval cfgs now newId p cs cd hv hs hd
    have herr : buildBurnTxData cfgs cs p.destDomain = .error .unsupportedRoute := by
      rw [hbuild, if_pos ⟨hcssn.mpr hx, hcdsn.mpr hy⟩]
    have hres := heval.2 .unsupportedRoute herr
    constructor
    · rw [hres]
      constructor
      · intro habs
        exact absurd (Except.error.inj habs) (by simp)
      · rintro ⟨hna, _⟩
        exact absurd hx hna
    · rw [heval.1, herr]
      constructor
      · intro habs
        exact Except.noConfusion habs
      · rintro (⟨_, hnb⟩ | ⟨hna, _⟩)
        · exact absurd hy hnb
        · exact absurd hx hna
  · -- Starknet → other: success
    have hv : isValidBridgePair p.sourceDomain p.destDomain = true := by
      simp [isValidBridgePair, hx]
    have heval := initiateBridge_eval cfgs now newId p cs cd hv hs hd
    have hok : buildBurnTxData cfgs cs p.destDomain = .ok () := by
      rw [hbuild, if_neg (by rintro ⟨_, hc⟩; exact hy (hcdsn.mp hc)),
        if_neg (by rintro ⟨hc, _⟩; rw [hcssn.mpr hx] at hc; exact ChainType.noConfusion hc)]
    constructor
    · constructor
      · intro habs
        obtain ⟨res, hres⟩ := heval.1.mpr hok
        rw [hres] at habs
        exact Except.noConfusion habs
      · rintro ⟨hna, _⟩
        exact absurd hx hna
    · rw [heval.1]
      constructor
      · intro _
        exact Or.inl ⟨hx, hy⟩
      · intro _
        exact hok
  · -- other → Starknet: success
    have hv : isValidBridgePair p.sourceDomain p.destDomain = true := by
      simp [isValidBridgePair, hy]
    have heval := initiateBridge_eval cfgs now newId p cs cd hv hs hd
    have hok : buildBurnTxData cfgs cs p.destDomain = .ok () := by
      rw [hbuild, if_neg (by rintro ⟨hc, _⟩; exact hx (hcssn.mp hc)),
        if_neg (by rintro ⟨_, hc⟩; rw [hcdsn.mpr hy] at hc; exact ChainType.noConfusion hc)]
    constructor
    · constructor
      · intro habs
        obtain ⟨res, hres⟩ := heval.1.mpr hok
        rw [hres] at habs
        exact Except.noConfusion habs
      · rintro ⟨_, hnb⟩
        exact absurd hy hnb
    · rw [heval.1]
      constructor
      · intro _
        exact Or.inr ⟨hx, hy⟩
      · intro _
        exact hok
  · -- neither domain is Starknet: invalid pair
    have hnv : ¬(isValidBridgePair p.sourceDomain p.destDomain = true) := by
      simp [isValidBridgePair, hx, hy]
    have hres : initiateBridge cfgs now newId p = .error .invalidPair := by
      unfold initiateBridge
      rw [if_pos hnv]
    constructor
    · rw [hres]
      exact ⟨fun _ => ⟨hx, hy⟩, fun _ => rfl⟩
    · rw [hres]
      constructor
      · rintro ⟨res, habs⟩
        exact Except.noConfusion habs
      · rintro (⟨ha, _⟩ | ⟨_, hb⟩)
        · exact absurd ha hx
        · exact absurd hb hy

/-- Witness for C2 at the sample registry and the Ethereum → Starknet request. -/
theorem initiateBridge_route_validation_witness :
    (registryWF sampleRegistry ∧
     sampleRegistry sampleParams.sourceDomain = some ethereumSampleConfig ∧
     sampleRegistry sampleParams.destDomain = some starknetSampleConfig) ∧
    routeValidationClaim sampleRegistry 1 "bridge-1" sampleParams := by
  have hwf : registryWF sampleRegistry := by
    intro d c h
    unfold sampleRegistry at h
    by_cases h25 : d = 25
    · rw [if_pos h25] at h
      rw [← Option.some.inj h, h25]
      refine ⟨rfl, ?_, ?_⟩
      · simp [starknetSampleConfig, STARKNET_DOMAIN_ID]
      · intro habs
        exact absurd habs (by simp [starknetSampleConfig])
    · rw [if_neg h25] at h
      by_cases h0 : d = 0
      · rw [if_pos h0] at h
        rw [← Option.some.inj h, h0]
        refine ⟨rfl, ?_, ?_⟩
        · simp [ethereumSampleConfig, STARKNET_DOMAIN_ID]
        · intro habs
          exact absurd habs (by simp [ethereumSampleConfig])
      · rw [if_neg h0] at h
        exact Option.noConfusion h
  exact ⟨⟨hwf, rfl, rfl⟩,
    initiateBridge_route_validation sampleRegistry 1 "bridge-1" sampleParams
      ethereumSampleConfig starknetSampleConfig hwf rfl rfl⟩

/-- Witness for C5: a concrete first burn recording on a fresh row, then the
rejected duplicate. -/
theorem recordBurn_dedup_witness :
    burnPOST id (.ok none) 2 (some "0xburn") none none (some sampleInitiatedTx) =
      (some (recordBurnTx id (.ok none) 2 "0xburn" none none sampleInitiatedTx), none) ∧
    (burnPOST id (.error ()) 3 (some "0xburn") none none
        (some (recordBurnTx id (.ok none) 2 "0xburn" none none sampleInitiatedTx)) =
      (some (recordBurnTx id (.ok none) 2 "0xburn" none none sampleInitiatedTx),
        some .alreadyBurned) ∧
     (recordBurnTx id (.ok none) 2 "0xburn" none none sampleInitiatedTx).burnTxHash =
        some "0xburn") :=
  ⟨rfl,
   recordBurn_dedup id (.ok none) (.error ()) 2 3 "0xburn" none none none none
     sampleInitiatedTx _ rfl⟩

/-- C4 (amended): for `r ∈ [0,1)` the computed delay is
`⌊d + r·0.3·d⌋` with `d = min(2000·1.5ⁿ, 60000)`; the pre-jitter delay is
non-decreasing in the attempt count; below the cap the result lies in
`[⌊2000·1.5ⁿ⌋, 2000·1.5ⁿ·1.3]`; and the result never exceeds `60000·1.3`. -/
theorem calculateBackoff_contract (n : Nat) (r : ℚ) (hr0 : 0 ≤ r) (hr1 : r < 1) :
    backoffClaim n r := by
  have hbase : (0 : ℚ) < BASE_DELAY := by norm_num [BASE_DELAY]
  have hpow : (0 : ℚ) < (3 / 2) ^ n := by positivity
  have hd0 : (0 : ℚ) ≤ min (BASE_DELAY * (3 / 2) ^ n) MAX_DELAY :=
    le_min (le_of_lt (mul_pos hbase hpow)) (by norm_num [MAX_DELAY])
  set d := min (BASE_DELAY * (3 / 2 : ℚ) ^ n) MAX_DELAY with hdef
  have hcb : calculateBackoff n r = ⌊d + r * (3 / 10) * d⌋ := rfl
  have hjit : (0 : ℚ) ≤ r * (3 / 10) * d := mul_nonneg (mul_nonneg hr0 (by norm_num)) hd0
  have hup : d + r * (3 / 10) * d ≤ d * (13 / 10) := by
    nlinarith [mul_nonneg hd0 (sub_nonneg.mpr (le_of_lt hr1))]
  refine ⟨rfl, ?_, ?_, ?_⟩
  · intro m
    refine min_le_min ?_ le_rfl
    exact mul_le_mul_of_nonneg_left
      (pow_le_pow_right₀ (by norm_num) (Nat.le_succ m)) (le_of_lt hbase)
  · intro hcap
    have hde : d = BASE_DELAY * (3 / 2 : ℚ) ^ n := min_eq_left hcap
    constructor
    · rw [hcb, ← hde]
      exact Int.floor_le_floor (le_add_of_nonneg_right hjit)
    · rw [hcb]
      calc ((⌊d + r * (3 / 10) * d⌋ : ℤ) : ℚ) ≤ d + r * (3 / 10) * d := Int.floor_le _
        _ ≤ d * (13 / 10) := hup
        _ = BASE_DELAY * (3 / 2) ^ n * (13 / 10) := by rw [hde]
  · have hdle : d ≤ MAX_DELAY := min_le_right _ _
    rw [hcb]
    calc ((⌊d + r * (3 / 10) * d⌋ : ℤ) : ℚ) ≤ d + r * (3 / 10) * d := Int.floor_le _
      _ ≤ d * (13 / 10) := hup
      _ ≤ MAX_DELAY * (13 / 10) := mul_le_mul_of_nonneg_right hdle (by norm_num)

/-- Witness for C4 at attempt 0 and jitter draw 1/2. -/
theorem calculateBackoff_contract_witness :
    ((0 : ℚ) ≤ 1 / 2 ∧ (1 / 2 : ℚ) < 1) ∧ backoffClaim 0 (1 / 2) :=
  ⟨⟨by norm_num, by norm_num⟩, calculateBackoff_contract 0 (1 / 2) (by norm_num) (by norm_num)⟩

/-- Counterexample to C4 as stated: at attempt 5 with jitter draw 0 the
uncapped pre-jitter delay is `2000·1.5⁵ = 15187.5`, and the computed delay
`15187` falls strictly below the claimed lower bound `2000·1.5ⁿ`. -/
theorem calculateBackoff_counterexample :
    calculateBackoff 5 0 = 15187 ∧
    BASE_DELAY * (3 / 2 : ℚ) ^ 5 ≤ MAX_DELAY ∧
    (calculateBackoff 5 0 : ℚ) < BASE_DELAY * (3 / 2) ^ 5 := by
  have hmin : min (BASE_DELAY * (3 / 2 : ℚ) ^ 5) MAX_DELAY = 30375 / 2 := by
    rw [min_eq_left (by norm_num [BASE_DELAY, MAX_DELAY])]
    norm_num [BASE_DELAY]
  have hval : calculateBackoff 5 0 = 15187 := by
    show (⌊min (BASE_DELAY * (3 / 2 : ℚ) ^ 5) MAX_DELAY +
      (0 : ℚ) * (3 / 10) * min (BASE_DELAY * (3 / 2 : ℚ) ^ 5) MAX_DELAY⌋) = 15187
    rw [hmin, Int.floor_eq_iff]
    norm_num
  refine ⟨hval, by norm_num [BASE_DELAY, MAX_DELAY], ?_⟩
  rw [hval]
  norm_num [BASE_DELAY]

/-- Every chunk produced by `hexToFeltArray` holds at most 62 nibbles (31 bytes). -/
theorem hexToFeltArray_chunk_le (hex : List HexDigit) :
    ∀ c ∈ hexToFeltArray hex, c.length ≤ 62 := by
  rw [hexToFeltArray]
  split
  · intro c hc
    exact absurd hc (by simp)
  · intro c hc
    rcases List.mem_cons.mp hc with hhd | htl
    · rw [hhd, List.length_take]
      exact min_le_left _ _
    · exact hexToFeltArray_chunk_le (hex.drop 62) c htl
termination_by hex.length
decreasing_by
  have hne : hex ≠ [] := by assumption
  have hpos : 0 < hex.length := List.length_pos.mpr hne
  simp only [List.length_drop]
  omega

/-- Concatenating the chunks produced by `hexToFeltArray` recovers the input. -/
theorem hexToFeltArray_flatten (hex : List HexDigit) :
    (hexToFeltArray hex).flatten = hex := by
  rw [hexToFeltArray]
  split
  · rename_i h
    rw [h]
    rfl
  · rw [List.flatten_cons, hexToFeltArray_flatten (hex.drop 62), List.take_append_drop]
termination_by hex.length
decreasing_by
  have hne : hex ≠ [] := by assumption
  have hpos : 0 < hex.length := List.length_pos.mpr hne
  simp only [List.length_drop]
  omega

/-- Reading back `n` chunk entries recovers the chunk list and the remainder. -/
theorem takeChunks_append (cs : List (List HexDigit)) (rest : List FeltEntry) :
    takeChunks cs.length (cs.map FeltEntry.chunk ++ rest) = some (cs, rest) := by
  induction cs with
  | nil => rfl
  | cons c cs ih =>
    simp only [List.length_cons, List.map_cons, List.cons_append, takeChunks,
      List.append_eq, ih, Option.map_some']

/-- The length-prefixed mint calldata decodes back to the exact message and
attestation nibble sequences. -/
theorem decodeMintCalldata_round (message attestation : List HexDigit) :
    decodeMintCalldata (buildStarknetMintCalldata message attestation) =
      some (message, attestation) := by
  have h1 := takeChunks_append (hexToFeltArray message)
    (FeltEntry.len (hexToFeltArray attestation).length ::
      (hexToFeltArray attestation).map FeltEntry.chunk)
  have h2 := takeChunks_append (hexToFeltArray attestation) []
  rw [List.append_nil] at h2
  have hb : buildStarknetMintCalldata message attestation =
      FeltEntry.len (hexToFeltArray message).length ::
        ((hexToFeltArray message).map FeltEntry.chunk ++
          FeltEntry.len (hexToFeltArray attestation).length ::
            (hexToFeltArray attestation).map FeltEntry.chunk) := rfl
  rw [hb]
  simp only [decodeMintCalldata]
  rw [h1]
  simp only [Option.bind, decodeTail]
  rw [h2]
  simp only [decodeAttSection]
  rw [hexToFeltArray_flatten, hexToFeltArray_flatten]

/-- C10: every felt chunk produced from a hex payload holds at most 62 hex
digits (31 bytes); concatenating the chunks in order reproduces the payload
exactly; and the Starknet mint call's length-prefixed calldata preserves both
the message and the attestation losslessly. -/
theorem starknetMintCalldata_lossless (hex message attestation : List HexDigit) :
    (∀ c ∈ hexToFeltArray hex, c.length ≤ 62) ∧
    (hexToFeltArray hex).flatten = hex ∧
    decodeMintCalldata (buildStarknetMintCalldata message attestation) =
      some (message, attestation) :=
  ⟨hexToFeltArray_chunk_le hex, hexToFeltArray_flatten hex,
   decodeMintCalldata_round message attestation⟩

/-- The function `checkAttestation` either leaves the status unchanged or advances it to
`attested`. -/
theorem checkAttestation_status_cases (hashFn : String → String) (f : FetchResult)
    (now : Nat) (tx : BridgeTx) :
    (checkAttestation hashFn f now tx).1.status = tx.status ∨
    (checkAttestation hashFn f now tx).1.status = .attested := by
  unfold checkAttestation
  split
  · exact Or.inl rfl
  · split
    · exact Or.inl rfl
    · split
      · exact Or.inl rfl
      · exact Or.inl rfl
      · dsimp only
        split
        · exact Or.inl rfl
        · exact Or.inr rfl

/-- Each operation applied at its intended phase makes an admissible transition. -/
theorem stepOK_applyOp (hashFn : String → String) (op : Op) (tx : BridgeTx)
    (h : phaseOK op tx) : stepOK tx.status (applyOp hashFn op tx).status := by
  cases op with
  | recordBurn f now th mb n =>
    have hs : tx.status = .initiated := h
    have hb : (applyOp hashFn (.recordBurn f now th mb n) tx).status = .burned := rfl
    rw [hb, hs]
    exact Or.inr ⟨by decide, by decide⟩
  | checkAtt f now =>
    have hs : tx.status = .burned := h
    have hb : (applyOp hashFn (.checkAtt f now) tx).status =
        (checkAttestation hashFn f now tx).1.status := rfl
    rcases checkAttestation_status_cases hashFn f now tx with hc | hc
    · rw [hb, hc, hs]
      exact Or.inr ⟨by decide, le_refl _⟩
    · rw [hb, hc, hs]
      exact Or.inr ⟨by decide, by decide⟩
  | recordMint now th =>
    have hs : tx.status = .attested := h
    have hb : (applyOp hashFn (.recordMint now th) tx).status = .completed := rfl
    rw [hb, hs]
    exact Or.inr ⟨by decide, by decide⟩
  | markFail now m =>
    exact Or.inl rfl

/-- C1 (amended): in any run in which each operation is applied at its intended
phase (`recordBurnTx` at `initiated`, `checkAttestation` at `burned`,
`recordMintTx` at `attested`, `markFailed` anywhere), every observed transition
either enters `failed` or moves (weakly) forward along
`initiated → burned → attested → minting → completed`, and nothing leaves
`failed`. -/
theorem status_monotone_phasedRun (hashFn : String → String) (tx : BridgeTx) (ops : List Op)
    (h : phasedRun hashFn tx ops) :
    List.Chain stepOK tx.status (statusTrace hashFn tx ops) := by
  induction ops generalizing tx with
  | nil => exact List.Chain.nil
  | cons op ops ih =>
    obtain ⟨h1, h2⟩ := h
    exact List.Chain.cons (stepOK_applyOp hashFn op tx h1) (ih (applyOp hashFn op tx) h2)

/-- Witness for C1 at a concrete full lifecycle run on a fresh row. -/
theorem status_monotone_phasedRun_witness :
    phasedRun id sampleInitiatedTx sampleOps ∧
    List.Chain stepOK sampleInitiatedTx.status (statusTrace id sampleInitiatedTx sampleOps) :=
  ⟨⟨rfl, rfl, rfl, trivial⟩,
   status_monotone_phasedRun id sampleInitiatedTx sampleOps ⟨rfl, rfl, rfl, trivial⟩⟩

/-- Counterexample to C1 as stated: on a transaction already marked `failed`,
`recordMintTx` (an unconditional update) moves the status out of `failed` to
`completed`, so the observed sequence `initiated, failed, completed` neither
stays on the chain nor ends in `failed`. -/
theorem recordMint_escapes_failed :
    (markFailed 2 "timeout" sampleInitiatedTx).status = .failed ∧
    (recordMintTx 3 "0xmint" (markFailed 2 "timeout" sampleInitiatedTx)).status = .completed ∧
    BridgeStatus.completed ≠ BridgeStatus.failed :=
  ⟨rfl, rfl, by decide⟩

/-- Under a not-ready oracle, `checkAttestation` on a not-yet-complete row
returns a falsy attestation. -/
theorem checkAttestation_notReady_result
    (hashFn : String → String) (f : FetchResult) (now : Nat) (tx : BridgeTx)
    (hf : notReadyFetch f)
    (hst : ¬(tx.attestationStatus = .complete ∨ tx.status = .completed)) :
    jsFalsy (checkAttestation hashFn f now tx).2 = true := by
  unfold checkAttestation
  rw [if_neg hst]
  split
  · rfl
  · split
    · rfl
    · rfl
    · rename_i md
      have hatt : jsFalsy md.attestation = true := hf
      dsimp only
      rw [if_pos hatt]
      rfl

/-- Under a not-ready oracle, `checkAttestation` touches neither `status` nor
`attestationStatus`. -/
theorem checkAttestation_notReady_state
    (hashFn : String → String) (f : FetchResult) (now : Nat) (tx : BridgeTx)
    (hf : notReadyFetch f)
    (hst : ¬(tx.attestationStatus = .complete ∨ tx.status = .completed)) :
    (checkAttestation hashFn f now tx).1.status = tx.status ∧
    (checkAttestation hashFn f now tx).1.attestationStatus = tx.attestationStatus := by
  unfold checkAttestation
  rw [if_neg hst]
  split
  · exact ⟨rfl, rfl⟩
  · split
    · exact ⟨rfl, rfl⟩
    · exact ⟨rfl, rfl⟩
    · rename_i md
      have hatt : jsFalsy md.attestation = true := hf
      dsimp only
      rw [if_pos hatt]
      exact ⟨rfl, rfl⟩

/-- Evaluation of one `processJob` step whose attestation check came back
falsy: the job either times out (deleting the job and failing the transfer) or
is rescheduled with an incremented attempt count. -/
theorem processJob_notReady_eval
    (hashFn : String → String) (i : PollInput) (jid : String) (s : WorkerSt)
    (job : AttestationJob)
    (hjob : s.jobs jid = some job)
    (hready : jsFalsy (checkAttestation hashFn i.fetched i.dbNow (s.store jid)).2 = true) :
    processJob hashFn i.fetched i.dbNow i.now i.r jid s =
      (if MAX_ATTEMPTS ≤ job.attempts + 1 then
        { jobs := fun j => if j = jid then none else s.jobs j
          store := fun j =>
            if j = jid then
              markFailed i.dbNow
                ("Attestation timeout after " ++ toString MAX_ATTEMPTS ++ " attempts")
                (checkAttestation hashFn i.fetched i.dbNow (s.store jid)).1
            else s.store j }
      else
        { jobs := fun j =>
            if j = jid then
              some { job with
                attempts := job.attempts + 1
                nextRetry := i.now + calculateBackoff (job.attempts + 1) i.r }
            else s.jobs j
          store := fun j =>
            if j = jid then (checkAttestation hashFn i.fetched i.dbNow (s.store jid)).1
            else s.store j }) := by
  unfold processJob
  rw [hjob]
  simp only [processJobGo, hready, Bool.not_true]
  rw [if_neg (by simp)]

/-- C8: if a tracked job's attestation check is consistently "not ready" (no
attestation, no throw), then once the attempt count reaches `MAX_ATTEMPTS`
(120) the job is removed from the worker's job set and the transfer is marked
`failed` with the timeout reason; this holds for every run of the poller step
relation with a not-ready collaborator. -/
theorem attestation_poll_exhaustion
    (hashFn : String → String) (jid : String) (ins : List PollInput) (s : WorkerSt)
    (job : AttestationJob)
    (hjob : s.jobs jid = some job)
    (hst : ¬((s.store jid).attestationStatus = .complete ∨ (s.store jid).status = .completed))
    (hn : ∀ i ∈ ins, notReadyFetch i.fetched)
    (hcount : job.attempts + ins.length = MAX_ATTEMPTS)
    (hne : ins ≠ []) :
    (runPoll hashFn jid ins s).jobs jid = none ∧
    ((runPoll hashFn jid ins s).store jid).status = .failed ∧
    ((runPoll hashFn jid ins s).store jid).errorMessage =
      some ("Attestation timeout after " ++ toString MAX_ATTEMPTS ++ " attempts") := by
  induction ins generalizing s job with
  | nil => exact absurd rfl hne
  | cons i is ih =>
    have hfi : notReadyFetch i.fetched := hn i (List.mem_cons_self i is)
    have hready := checkAttestation_notReady_result hashFn i.fetched i.dbNow (s.store jid) hfi hst
    have hpres := checkAttestation_notReady_state hashFn i.fetched i.dbNow (s.store jid) hfi hst
    have hst' : ¬((checkAttestation hashFn i.fetched i.dbNow (s.store jid)).1.attestationStatus
          = .complete ∨
        (checkAttestation hashFn i.fetched i.dbNow (s.store jid)).1.status = .completed) := by
      intro hcon
      apply hst
      rcases hcon with hca | hcb
      · exact Or.inl (by rw [← hpres.2]; exact hca)
      · exact Or.inr (by rw [← hpres.1]; exact hcb)
    have hrun : runPoll hashFn jid (i :: is) s =
        runPoll hashFn jid is (processJob hashFn i.fetched i.dbNow i.now i.r jid s) := rfl
    have hpj := processJob_notReady_eval hashFn i jid s job hjob hready
    by_cases hmax : MAX_ATTEMPTS ≤ job.attempts + 1
    · have hlen0 : is.length = 0 := by
        simp only [List.length_cons, MAX_ATTEMPTS] at hcount hmax
        omega
      have his : is = [] := List.eq_nil_of_length_eq_zero hlen0
      subst his
      rw [hrun, hpj, if_pos hmax]
      refine ⟨?_, ?_, ?_⟩ <;> simp [runPoll, markFailed]
    · have his : is ≠ [] := by
        intro h0
        subst h0
        simp only [List.length_cons, List.length_nil, MAX_ATTEMPTS] at hcount hmax
        omega
      rw [hrun, hpj, if_neg hmax]
      exact ih _
        { job with
          attempts := job.attempts + 1
          nextRetry := i.now + calculateBackoff (job.attempts + 1) i.r }
        (by simp)
        (by simpa using hst')
        (fun i' hi' => hn i' (List.mem_cons_of_mem i hi'))
        (by simp only [List.length_cons, MAX_ATTEMPTS] at hcount ⊢; omega)
        his

/-- Witness for C8: a job at attempt 119 over a burned row, one more not-ready
poll times it out. -/
theorem attestation_poll_exhaustion_witness :
    (sampleWorkerSt.jobs "bridge-1" = some sampleJob ∧
     ¬((sampleWorkerSt.store "bridge-1").attestationStatus = .complete ∨
        (sampleWorkerSt.store "bridge-1").status = .completed) ∧
     (∀ i ∈ [samplePollInput], notReadyFetch i.fetched) ∧
     sampleJob.attempts + [samplePollInput].length = MAX_ATTEMPTS ∧
     [samplePollInput] ≠ []) ∧
    ((runPoll id "bridge-1" [samplePollInput] sampleWorkerSt).jobs "bridge-1" = none ∧
     ((runPoll id "bridge-1" [samplePollInput] sampleWorkerSt).store "bridge-1").status =
        .failed ∧
     ((runPoll id "bridge-1" [samplePollInput] sampleWorkerSt).store "bridge-1").errorMessage =
        some ("Attestation timeout after " ++ toString MAX_ATTEMPTS ++ " attempts")) :=
  ⟨⟨rfl, by decide, by simp [samplePollInput, notReadyFetch], by decide, by simp⟩,
   attestation_poll_exhaustion id "bridge-1" [samplePollInput] sampleWorkerSt sampleJob
     rfl (by decide) (by simp [samplePollInput, notReadyFetch]) (by decide) (by simp)⟩

end CCTP
